import Mathlib

/-!
Shallow embedding of the APR polling engine (poll.c of the apr repository):
the event-flag translator, the one-shot multiplexer apr_poll, and the
pollset object (create / add / remove / poll) in both build-time backends:
the poll(2) based event-list backend (HAVE_POLL) and the select(2) based
bitmap backend.  Native blocking calls (poll, select) are modelled as
oracles supplying the native return value, the errno value, and the
per-descriptor native results; everything else is translated line by line
from the source.
-/

namespace APRPoll

/-- Modelled from the spec: portable event flag Readable.  The numeric bit
values of the portable flags live in a header of the repository that is not
part of the sources here; the spec states the six names are the contract and
the bit values an implementation detail, so the historical APR bit values
are used (six distinct bits). -/
def APR_POLLIN : Nat := 0x001

/-- Modelled from the spec: portable event flag Priority. -/
def APR_POLLPRI : Nat := 0x002

/-- Modelled from the spec: portable event flag Writable. -/
def APR_POLLOUT : Nat := 0x004

/-- Modelled from the spec: portable event flag Error. -/
def APR_POLLERR : Nat := 0x010

/-- Modelled from the spec: portable event flag HangUp. -/
def APR_POLLHUP : Nat := 0x020

/-- Modelled from the spec: portable event flag Invalid. -/
def APR_POLLNVAL : Nat := 0x040

/-- The bitmask of all six portable event flags. -/
def APR_EVENT_MASK : Nat :=
  APR_POLLIN ||| APR_POLLPRI ||| APR_POLLOUT ||| APR_POLLERR ||| APR_POLLHUP ||| APR_POLLNVAL

/-- Native poll(2) event bit POLLIN (platform header value, six distinct bits). -/
def POLLIN : Nat := 0x001

/-- Native poll(2) event bit POLLPRI. -/
def POLLPRI : Nat := 0x002

/-- Native poll(2) event bit POLLOUT. -/
def POLLOUT : Nat := 0x004

/-- Native poll(2) event bit POLLERR. -/
def POLLERR : Nat := 0x008

/-- Native poll(2) event bit POLLHUP. -/
def POLLHUP : Nat := 0x010

/-- Native poll(2) event bit POLLNVAL. -/
def POLLNVAL : Nat := 0x020

/-- The bitmask of the six recognized native poll(2) event bits. -/
def POLL_EVENT_MASK : Nat :=
  POLLIN ||| POLLPRI ||| POLLOUT ||| POLLERR ||| POLLHUP ||| POLLNVAL

/-- get_event (poll.c): translate a portable event mask to the native
poll(2) event mask, one conditional OR per recognized flag. -/
def get_event (event : Nat) : Nat :=
  let rv : Nat := 0
  let rv := if event &&& APR_POLLIN ≠ 0 then rv ||| POLLIN else rv
  let rv := if event &&& APR_POLLPRI ≠ 0 then rv ||| POLLPRI else rv
  let rv := if event &&& APR_POLLOUT ≠ 0 then rv ||| POLLOUT else rv
  let rv := if event &&& APR_POLLERR ≠ 0 then rv ||| POLLERR else rv
  let rv := if event &&& APR_POLLHUP ≠ 0 then rv ||| POLLHUP else rv
  let rv := if event &&& APR_POLLNVAL ≠ 0 then rv ||| POLLNVAL else rv
  rv

/-- get_revent (poll.c): translate a native poll(2) result mask back to the
portable event mask, one conditional OR per recognized native bit. -/
def get_revent (event : Nat) : Nat :=
  let rv : Nat := 0
  let rv := if event &&& POLLIN ≠ 0 then rv ||| APR_POLLIN else rv
  let rv := if event &&& POLLPRI ≠ 0 then rv ||| APR_POLLPRI else rv
  let rv := if event &&& POLLOUT ≠ 0 then rv ||| APR_POLLOUT else rv
  let rv := if event &&& POLLERR ≠ 0 then rv ||| APR_POLLERR else rv
  let rv := if event &&& POLLHUP ≠ 0 then rv ||| APR_POLLHUP else rv
  let rv := if event &&& POLLNVAL ≠ 0 then rv ||| APR_POLLNVAL else rv
  rv

/-- Helper: a submask of APR_EVENT_MASK is at most APR_EVENT_MASK. -/
lemma apr_mask_bound {s : Nat} (hs : s &&& APR_EVENT_MASK = s) : s < 0x78 := by
  have h := Nat.and_le_right (n := s) (m := APR_EVENT_MASK)
  rw [hs] at h
  exact lt_of_le_of_lt h (by decide)

/-- Helper: round trip on every submask of the six portable flags, by
exhaustive evaluation below the mask bound. -/
lemma get_revent_get_event_bounded :
    ∀ s < 0x78, s &&& APR_EVENT_MASK = s → get_revent (get_event s) = s := by decide

/-- Helper: get_revent reads only the six recognized native bits. -/
lemma get_revent_and_mask (r : Nat) :
    get_revent (r &&& POLL_EVENT_MASK) = get_revent r := by
  have h1 : r &&& POLL_EVENT_MASK &&& POLLIN = r &&& POLLIN := by
    rw [Nat.and_assoc, show POLL_EVENT_MASK &&& POLLIN = POLLIN from by decide]
  have h2 : r &&& POLL_EVENT_MASK &&& POLLPRI = r &&& POLLPRI := by
    rw [Nat.and_assoc, show POLL_EVENT_MASK &&& POLLPRI = POLLPRI from by decide]
  have h3 : r &&& POLL_EVENT_MASK &&& POLLOUT = r &&& POLLOUT := by
    rw [Nat.and_assoc, show POLL_EVENT_MASK &&& POLLOUT = POLLOUT from by decide]
  have h4 : r &&& POLL_EVENT_MASK &&& POLLERR = r &&& POLLERR := by
    rw [Nat.and_assoc, show POLL_EVENT_MASK &&& POLLERR = POLLERR from by decide]
  have h5 : r &&& POLL_EVENT_MASK &&& POLLHUP = r &&& POLLHUP := by
    rw [Nat.and_assoc, show POLL_EVENT_MASK &&& POLLHUP = POLLHUP from by decide]
  have h6 : r &&& POLL_EVENT_MASK &&& POLLNVAL = r &&& POLLNVAL := by
    rw [Nat.and_assoc, show POLL_EVENT_MASK &&& POLLNVAL = POLLNVAL from by decide]
  simp only [get_revent, h1, h2, h3, h4, h5, h6]

/-- C5: for every subset S of the six portable event flags (represented as a
submask of the six flag bits), translating a request to native form and the
native form back yields S unchanged, i.e. the two directions of the
event-flag translator are mutual inverses on the six defined flags; and the
result direction drops every native bit outside the six recognized kinds. -/
theorem event_flag_roundtrip :
    (∀ s : Nat, s &&& APR_EVENT_MASK = s → get_revent (get_event s) = s) ∧
    (∀ r : Nat, get_revent (r &&& POLL_EVENT_MASK) = get_revent r) := by
  refine ⟨fun s hs => get_revent_get_event_bounded s (apr_mask_bound hs) hs, get_revent_and_mask⟩

/-- Witness for event_flag_roundtrip at the concrete subset
Readable + Writable + HangUp (mask 0x25). -/
theorem event_flag_roundtrip_witness :
    (0x25 &&& APR_EVENT_MASK = 0x25) ∧ get_revent (get_event 0x25) = 0x25 :=
  ⟨by decide, event_flag_roundtrip.1 0x25 (by decide)⟩

/-! ## Data model -/

/-- apr_datatype_e: the closed descriptor-kind tag of apr_pollfd_t. -/
inductive apr_datatype
  | APR_POLL_SOCKET
  | APR_POLL_FILE
deriving DecidableEq

/-- apr_pollfd_t: one descriptor-interest record.  The desc union member is
modelled by descPtr, the identity of the pointed-to socket or file object
(remove compares these pointers), and descFd, the native handle stored in
that object (socketdes for sockets, filedes for files). -/
structure apr_pollfd_t where
  desc_type : apr_datatype
  descPtr : Nat
  descFd : Int
  reqevents : Nat
  rtnevents : Nat
  client_data : Nat
deriving DecidableEq

instance : Inhabited apr_pollfd_t :=
  ⟨⟨apr_datatype.APR_POLL_SOCKET, 0, 0, 0, 0, 0⟩⟩

/-- struct pollfd: one native event-list entry. -/
structure pollfd where
  fd : Int
  events : Nat
  revents : Nat
deriving DecidableEq

instance : Inhabited pollfd := ⟨⟨0, 0, 0⟩⟩

/-- apr_status_t values the engine returns (distinct status codes in apr;
errno carries a platform error value verbatim). -/
inductive apr_status
  | APR_SUCCESS
  | APR_TIMEUP
  | APR_ENOMEM
  | APR_NOTFOUND
  | APR_EBADF
  | errno (e : Nat)
deriving DecidableEq

/-- Oracle for one native poll(2) call: the return value, the errno value in
force when the return value is negative, and the revents word the call
stores into entry i of the native array. -/
structure PollOracle where
  rv : Int
  err : Nat
  revents : Nat → Nat

/-- Oracle for one native select(2) call: the return value, the errno value,
and the contents of the three descriptor sets after the call. -/
structure SelectOracle where
  rv : Int
  err : Nat
  readset : List Int
  writeset : List Int
  exceptset : List Int

/-! ## List helpers (index loops of the C code) -/

/-- An indexed map starting at index i: the shape of the for loops that
rebuild an array entry by entry. -/
def mapIdxFrom (f : Nat → α → α) : Nat → List α → List α
  | _, [] => []
  | i, a :: as => f i a :: mapIdxFrom f (i + 1) as

lemma mapIdxFrom_length (f : Nat → α → α) :
    ∀ (l : List α) (i : Nat), (mapIdxFrom f i l).length = l.length := by
  intro l
  induction l with
  | nil => intro i; rfl
  | cons a as ih => intro i; simp [mapIdxFrom, ih]

lemma mapIdxFrom_getD (f : Nat → α → α) (d : α) :
    ∀ (l : List α) (i j : Nat), j < l.length →
      (mapIdxFrom f i l).getD j d = f (i + j) (l.getD j d) := by
  intro l
  induction l with
  | nil => intro i j h; simp at h
  | cons a as ih =>
    intro i j h
    cases j with
    | zero => simp [mapIdxFrom]
    | succ j' =>
      have h' : j' < as.length := by simpa using h
      have := ih (i + 1) j' h'
      simpa [mapIdxFrom, Nat.add_assoc, Nat.add_comm 1 j'] using this

/-- Writing a list of values into consecutive slots starting at index j:
the shape of the result-set compaction loops. -/
def writeAll : List α → Nat → List α → List α
  | rset, _, [] => rset
  | rset, j, x :: xs => writeAll (rset.set j x) (j + 1) xs

lemma writeAll_length : ∀ (xs rset : List α) (j : Nat),
    (writeAll rset j xs).length = rset.length := by
  intro xs
  induction xs with
  | nil => intro rset j; rfl
  | cons x xs ih => intro rset j; simp [writeAll, ih]

lemma getD_set_ne (d : α) : ∀ (l : List α) (i j : Nat) (a : α), i ≠ j →
    (l.set i a).getD j d = l.getD j d := by
  intro l
  induction l with
  | nil => intro i j a _; simp
  | cons b bs ih =>
    intro i j a hij
    cases i with
    | zero =>
      cases j with
      | zero => exact absurd rfl hij
      | succ j' => simp [List.set]
    | succ i' =>
      cases j with
      | zero => simp [List.set]
      | succ j' =>
        have : i' ≠ j' := fun h => hij (by simp [h])
        simpa [List.getD] using ih i' j' a this

lemma getD_set_self (d : α) : ∀ (l : List α) (i : Nat) (a : α), i < l.length →
    (l.set i a).getD i d = a := by
  intro l
  induction l with
  | nil => intro i a h; simp at h
  | cons b bs ih =>
    intro i a h
    cases i with
    | zero => simp [List.set]
    | succ i' =>
      have h' : i' < bs.length := by simpa using h
      simpa [List.getD] using ih i' a h'

lemma take_succ_set (x : α) : ∀ (l : List α) (j : Nat), j < l.length →
    (l.set j x).take (j + 1) = l.take j ++ [x] := by
  intro l
  induction l with
  | nil => intro j h; simp at h
  | cons b bs ih =>
    intro j h
    cases j with
    | zero => simp [List.set]
    | succ j' =>
      have h' : j' < bs.length := by simpa using h
      simp [List.set, List.take_succ_cons, ih j' h']

lemma writeAll_take : ∀ (xs rset : List α) (j : Nat), j + xs.length ≤ rset.length →
    (writeAll rset j xs).take (j + xs.length) = rset.take j ++ xs := by
  intro xs
  induction xs with
  | nil => intro rset j h; simp [writeAll]
  | cons x xs ih =>
    intro rset j h
    have hlt : j < rset.length := by
      have := h; simp only [List.length_cons] at this; omega
    have harith : j + (x :: xs).length = (j + 1) + xs.length := by
      simp [List.length_cons]; omega
    rw [harith, writeAll]
    have hle : (j + 1) + xs.length ≤ (rset.set j x).length := by
      simp only [List.length_set]
      simp only [List.length_cons] at h; omega
    rw [ih (rset.set j x) (j + 1) hle]
    rw [take_succ_set x rset j hlt]
    simp

lemma filterMap_congr_mem (f g : α → Option β) :
    ∀ l : List α, (∀ a ∈ l, f a = g a) → l.filterMap f = l.filterMap g := by
  intro l
  induction l with
  | nil => intro _; rfl
  | cons a as ih =>
    intro h
    have ha := h a (List.mem_cons_self a as)
    have has : ∀ b ∈ as, f b = g b := fun b hb => h b (List.mem_cons_of_mem a hb)
    simp only [List.filterMap_cons, ha, ih has]

/-! ## Timeout conversion -/

/-- Modelled from the spec: apr_time_sec of apr_time.h (a header of the
repository not present here) extracts whole seconds from a microsecond
duration by integer division. -/
def apr_time_sec (t : Int) : Int := t / 1000000

/-- Modelled from the spec: apr_time_usec of apr_time.h extracts the
leftover microseconds of a microsecond duration. -/
def apr_time_usec (t : Int) : Int := t % 1000000

/-- Timeout argument handed to native poll by apr_poll and apr_pollset_poll
in the event-list backend: a positive microsecond timeout is divided by
1000 (millisecond truncation); zero and negative values pass unchanged
(negative means block indefinitely for poll). -/
def pollTimeoutArg (timeout : Int) : Int :=
  if timeout > 0 then timeout / 1000 else timeout

/-- Timeout argument handed to native select by apr_poll and
apr_pollset_poll in the bitmap backend: a negative timeout becomes a NULL
timeval pointer (none, block indefinitely); otherwise a timeval of
(apr_time_sec, apr_time_usec). -/
def selectTimeoutArg (timeout : Int) : Option (Int × Int) :=
  if timeout < 0 then none
  else some (apr_time_sec timeout, apr_time_usec timeout)

/-- C6: the event-list backend passes a positive microsecond timeout to its
native wait truncated to milliseconds (integer division by 1000) and passes
a negative timeout through unchanged (block indefinitely); the bitmap
backend passes a negative timeout as a NULL timeval (block indefinitely)
and a nonnegative timeout split into seconds and microseconds, with the
original microsecond resolution preserved exactly. -/
theorem timeout_conversion :
    (∀ t : Int, 0 < t → pollTimeoutArg t = t / 1000) ∧
    (∀ t : Int, t < 0 → pollTimeoutArg t = t) ∧
    (∀ t : Int, t < 0 → selectTimeoutArg t = none) ∧
    (∀ t : Int, 0 ≤ t → selectTimeoutArg t = some (apr_time_sec t, apr_time_usec t) ∧
      1000000 * apr_time_sec t + apr_time_usec t = t) := by
  refine ⟨fun t ht => ?_, fun t ht => ?_, fun t ht => ?_, fun t ht => ⟨?_, ?_⟩⟩
  · simp [pollTimeoutArg, ht]
  · simp only [pollTimeoutArg]
    rw [if_neg (by omega)]
  · simp [selectTimeoutArg, ht]
  · simp [selectTimeoutArg, not_lt.mpr ht]
  · exact Int.ediv_add_emod t 1000000

/-- Witness for timeout_conversion at timeout 2500 microseconds and -1. -/
theorem timeout_conversion_witness :
    ((0:Int) < 2500 ∧ pollTimeoutArg 2500 = 2500 / 1000) ∧
    ((-1:Int) < 0 ∧ selectTimeoutArg (-1) = none) :=
  ⟨⟨by decide, timeout_conversion.1 2500 (by decide)⟩,
   ⟨by decide, timeout_conversion.2.2.1 (-1) (by decide)⟩⟩

/-! ## One-shot multiplexer, event-list backend (apr_poll under HAVE_POLL) -/

/-- The native request array apr_poll builds from the caller records:
entry i holds the native handle (socketdes for sockets, filedes for files)
and the translated request events. -/
def apr_poll_request (aprset : List apr_pollfd_t) : List pollfd :=
  aprset.map fun r => ({ fd := r.descFd, events := get_event r.reqevents, revents := 0 } : pollfd)

/-- The native array after the native poll call wrote its results: poll
fills the revents word of every entry it was given. -/
def apr_poll_filled (aprset : List apr_pollfd_t) (o : PollOracle) : List pollfd :=
  mapIdxFrom (fun i p => { p with revents := o.revents i }) 0 (apr_poll_request aprset)

/-- The writeback loop of apr_poll: aprset[i].rtnevents =
get_revent(pollset[i].revents) for every i below the record count.  It runs
before the return-value checks. -/
def apr_poll_writeback (aprset : List apr_pollfd_t) (o : PollOracle) : List apr_pollfd_t :=
  mapIdxFrom (fun i r => { r with rtnevents := get_revent ((apr_poll_filled aprset o).getD i default).revents }) 0 aprset

/-- The status apr_poll returns, from the checks that follow the writeback
loop: a negative native return yields the errno value, zero yields
APR_TIMEUP, positive yields APR_SUCCESS. -/
def apr_poll_status (o : PollOracle) : apr_status :=
  if o.rv < 0 then apr_status.errno o.err
  else if o.rv = 0 then apr_status.APR_TIMEUP
  else apr_status.APR_SUCCESS

/-- apr_poll, event-list backend: returns the status, the stored nsds value
(the native return, stored before the checks), and the caller record array
after the writeback loop. -/
def apr_poll (aprset : List apr_pollfd_t) (o : PollOracle) :
    apr_status × Int × List apr_pollfd_t :=
  (apr_poll_status o, o.rv, apr_poll_writeback aprset o)

/-- C8: the event-list backend one-shot call writes the translated
returned_events of every input record unconditionally: the writeback loop
runs before the return-value checks, so the fields are overwritten whatever
status (platform error, timeout or success) the call reports; nothing in
the conclusion depends on the sign of the native return value. -/
theorem apr_poll_unconditional_writeback (aprset : List apr_pollfd_t) (o : PollOracle)
    (i : Nat) (hi : i < aprset.length) :
    (((apr_poll aprset o).2.2).getD i default).rtnevents = get_revent (o.revents i) := by
  show ((apr_poll_writeback aprset o).getD i default).rtnevents = _
  rw [apr_poll_writeback, mapIdxFrom_getD _ _ aprset 0 i hi]
  have hlen : i < (apr_poll_request aprset).length := by
    simpa [apr_poll_request] using hi
  have hfill : ((apr_poll_filled aprset o).getD i default).revents = o.revents i := by
    rw [apr_poll_filled, mapIdxFrom_getD _ _ _ 0 i hlen]
    simp
  simp only [Nat.zero_add]
  show get_revent ((apr_poll_filled aprset o).getD i default).revents = _
  rw [hfill]

/-- Witness for apr_poll_unconditional_writeback: a one-record array and a
native call that fails with errno 7 after marking the record ready; the
record rtnevents field is overwritten although the call reports the error. -/
theorem apr_poll_unconditional_writeback_witness :
    (0 < ([⟨apr_datatype.APR_POLL_SOCKET, 1, 3, APR_POLLIN, 0, 0⟩] : List apr_pollfd_t).length) ∧
    (((apr_poll [⟨apr_datatype.APR_POLL_SOCKET, 1, 3, APR_POLLIN, 0, 0⟩]
        ⟨-1, 7, fun _ => POLLIN⟩).2.2.getD 0 default).rtnevents =
      get_revent ((⟨-1, 7, fun _ => POLLIN⟩ : PollOracle).revents 0)) ∧
    (apr_poll [⟨apr_datatype.APR_POLL_SOCKET, 1, 3, APR_POLLIN, 0, 0⟩]
        ⟨-1, 7, fun _ => POLLIN⟩).1 = apr_status.errno 7 :=
  ⟨by decide,
   apr_poll_unconditional_writeback [⟨apr_datatype.APR_POLL_SOCKET, 1, 3, APR_POLLIN, 0, 0⟩]
     ⟨-1, 7, fun _ => POLLIN⟩ 0 (by decide),
   rfl⟩

/-! ## Pollset, event-list backend (HAVE_POLL) -/

/-- apr_pollset_t under HAVE_POLL: the registry count, the fixed capacity,
the native shadow array, the query registry and the result buffer. -/
structure apr_pollset_t where
  nelts : Nat
  nalloc : Nat
  pollset : List pollfd
  query_set : List apr_pollfd_t
  result_set : List apr_pollfd_t
deriving DecidableEq

/-- apr_pollset_create under HAVE_POLL: count 0, capacity size, and the
three arrays allocated with size entries (their initial contents are
arbitrary pool memory; default entries stand in for them). -/
def apr_pollset_create (size : Nat) : apr_pollset_t :=
  { nelts := 0
    nalloc := size
    pollset := List.replicate size default
    query_set := List.replicate size default
    result_set := List.replicate size default }

/-- apr_pollset_destroy: a no-op that returns APR_SUCCESS. -/
def apr_pollset_destroy (ps : apr_pollset_t) : apr_status × apr_pollset_t :=
  (apr_status.APR_SUCCESS, ps)

/-- apr_pollset_add under HAVE_POLL: full registry fails with APR_ENOMEM;
otherwise the record is stored at index nelts of query_set, the native
entry at index nelts gets the handle (socketdes for sockets, filedes
otherwise) and the translated events, and nelts is incremented. -/
def apr_pollset_add (ps : apr_pollset_t) (descriptor : apr_pollfd_t) :
    apr_status × apr_pollset_t :=
  if ps.nelts = ps.nalloc then (apr_status.APR_ENOMEM, ps)
  else
    let query_set := ps.query_set.set ps.nelts descriptor
    let fd : Int :=
      match descriptor.desc_type with
      | apr_datatype.APR_POLL_SOCKET => descriptor.descFd
      | apr_datatype.APR_POLL_FILE => descriptor.descFd
    let old := ps.pollset.getD ps.nelts default
    let pollset := ps.pollset.set ps.nelts
      { old with fd := fd, events := get_event descriptor.reqevents }
    (apr_status.APR_SUCCESS,
     { ps with query_set := query_set, pollset := pollset, nelts := ps.nelts + 1 })

/-- Inner loop of apr_pollset_remove under HAVE_POLL, translated with an
explicit fuel that counts the remaining iterations (fuel = old_nelts - i):
a matching entry decrements nelts, a non-matching entry is copied to slot
dst of both the native array and the query set.  dst is never changed, as
in the source. -/
def removeInnerP (dptr : Nat) (dst : Nat) : Nat → Nat → apr_pollset_t → apr_pollset_t
  | 0, _, st => st
  | n + 1, i, st =>
    if (st.query_set.getD i default).descPtr = dptr then
      removeInnerP dptr dst n (i + 1) { st with nelts := st.nelts - 1 }
    else
      removeInnerP dptr dst n (i + 1)
        { st with
          pollset := st.pollset.set dst (st.pollset.getD i default)
          query_set := st.query_set.set dst (st.query_set.getD i default) }

/-- Outer loop of apr_pollset_remove under HAVE_POLL (fuel = nelts - i):
scan for the first entry whose desc pointer matches; on a match, save
dst = i and old_nelts, decrement nelts and run the inner loop from i + 1 to
old_nelts; if the scan ends, APR_NOTFOUND. -/
def removeOuterP (dptr : Nat) : Nat → Nat → apr_pollset_t → apr_status × apr_pollset_t
  | 0, _, st => (apr_status.APR_NOTFOUND, st)
  | n + 1, i, st =>
    if (st.query_set.getD i default).descPtr = dptr then
      (apr_status.APR_SUCCESS,
       removeInnerP dptr i (st.nelts - (i + 1)) (i + 1) { st with nelts := st.nelts - 1 })
    else removeOuterP dptr n (i + 1) st

/-- apr_pollset_remove under HAVE_POLL. -/
def apr_pollset_remove (ps : apr_pollset_t) (descriptor : apr_pollfd_t) :
    apr_status × apr_pollset_t :=
  removeOuterP descriptor.descPtr ps.nelts 0 ps

/-- Result-compaction loop of apr_pollset_poll under HAVE_POLL
(fuel = nelts - i): every entry whose native revents word is nonzero is
copied from query_set into slot j of the result buffer with rtnevents set
to the translated revents; j advances only on ready entries.  Returns the
rewritten buffer and the final j. -/
def fillLoopP (psl : List pollfd) (qs : List apr_pollfd_t) :
    Nat → Nat → Nat → List apr_pollfd_t → List apr_pollfd_t × Nat
  | 0, _, j, rset => (rset, j)
  | n + 1, i, j, rset =>
    if (psl.getD i default).revents ≠ 0 then
      fillLoopP psl qs n (i + 1) (j + 1)
        (rset.set j { qs.getD i default with rtnevents := get_revent (psl.getD i default).revents })
    else fillLoopP psl qs n (i + 1) j rset

/-- The native shadow array after the native poll call: poll writes the
revents word of the first nelts entries. -/
def pollset_filled (ps : apr_pollset_t) (o : PollOracle) : List pollfd :=
  mapIdxFrom (fun i p => if i < ps.nelts then { p with revents := o.revents i } else p) 0 ps.pollset

/-- apr_pollset_poll under HAVE_POLL: stores the native return in num, a
negative return yields the errno value, zero yields APR_TIMEUP, otherwise
the compaction loop rewrites the result buffer and the call succeeds. -/
def apr_pollset_poll (ps : apr_pollset_t) (o : PollOracle) :
    apr_status × Int × apr_pollset_t :=
  let filled := pollset_filled ps o
  if o.rv < 0 then (apr_status.errno o.err, o.rv, { ps with pollset := filled })
  else if o.rv = 0 then (apr_status.APR_TIMEUP, o.rv, { ps with pollset := filled })
  else
    let fr := fillLoopP filled ps.query_set ps.nelts 0 0 ps.result_set
    (apr_status.APR_SUCCESS, o.rv, { ps with pollset := filled, result_set := fr.1 })

/-! ## Bitmap (select) backend -/

/-- FD_SET: mark a handle in a descriptor bit-vector (modelled as the set
of marked handles). -/
def FD_SET (fd : Int) (s : List Int) : List Int := if fd ∈ s then s else fd :: s

/-- FD_CLR: clear a handle from a descriptor bit-vector. -/
def FD_CLR (fd : Int) (s : List Int) : List Int := s.filter (fun x => x ≠ fd)

/-- The request mask that routes a descriptor into the exception
bit-vector: POLLPRI, POLLERR, POLLHUP or POLLNVAL requested. -/
def APR_EXCEPT_MASK : Nat := APR_POLLPRI ||| APR_POLLERR ||| APR_POLLHUP ||| APR_POLLNVAL

/-- The result word the bitmap backend writes for a handle: start from 0,
OR in Readable if the handle is in the post-wait read set, Writable for the
write set, Error for the exception set (poll.c one-shot result loop and the
pollset result loop build rtnevents exactly this way). -/
def sel_revents (o : SelectOracle) (fd : Int) : Nat :=
  let rv : Nat := 0
  let rv := if fd ∈ o.readset then rv ||| APR_POLLIN else rv
  let rv := if fd ∈ o.writeset then rv ||| APR_POLLOUT else rv
  let rv := if fd ∈ o.exceptset then rv ||| APR_POLLERR else rv
  rv

/-- Build loop of the select-based apr_poll: each record marks its handle
in the read set (Readable requested), write set (Writable requested) and
exception set (Priority, Error, HangUp or Invalid requested) and raises
maxfd; on a WIN32 build a file record makes the call return APR_EBADF at
once.  The accumulator is (readset, writeset, exceptset, maxfd). -/
def apr_poll_sel_build (win32 : Bool) :
    List apr_pollfd_t → List Int × List Int × List Int × Int →
    apr_status × (List Int × List Int × List Int × Int)
  | [], acc => (apr_status.APR_SUCCESS, acc)
  | r :: rest, (rs, ws, es, maxfd) =>
    if win32 = true ∧ r.desc_type = apr_datatype.APR_POLL_FILE then
      (apr_status.APR_EBADF, (rs, ws, es, maxfd))
    else
      let fd := r.descFd
      let rs := if r.reqevents &&& APR_POLLIN ≠ 0 then FD_SET fd rs else rs
      let ws := if r.reqevents &&& APR_POLLOUT ≠ 0 then FD_SET fd ws else ws
      let es := if r.reqevents &&& APR_EXCEPT_MASK ≠ 0 then FD_SET fd es else es
      let maxfd := if fd > maxfd then fd else maxfd
      apr_poll_sel_build win32 rest (rs, ws, es, maxfd)

/-- Result loop of the select-based apr_poll: every record gets rtnevents
rebuilt from the three post-wait sets; on a WIN32 build a file record makes
the call return APR_EBADF mid-loop, leaving it and the following records
unwritten. -/
def apr_poll_sel_result (win32 : Bool) (o : SelectOracle) :
    List apr_pollfd_t → apr_status × List apr_pollfd_t
  | [] => (apr_status.APR_SUCCESS, [])
  | r :: rest =>
    if win32 = true ∧ r.desc_type = apr_datatype.APR_POLL_FILE then
      (apr_status.APR_EBADF, r :: rest)
    else
      let r2 := { r with rtnevents := sel_revents o r.descFd }
      let tail := apr_poll_sel_result win32 o rest
      (tail.1, r2 :: tail.2)

/-- Outcome of the select-based one-shot apr_poll: the status, the stored
nsds value (none when the call returned before the wait), and the caller
record array. -/
structure PollOnceSelOutcome where
  status : apr_status
  nsds : Option Int
  aprset : List apr_pollfd_t
deriving DecidableEq

/-- apr_poll, bitmap backend: build the three bit-vectors (possibly failing
with APR_EBADF on WIN32 for file records), perform the select wait, store
nsds, return APR_TIMEUP on a zero count, the errno value on a negative
count, and otherwise rewrite every rtnevents from the post-wait sets. -/
def apr_poll_sel (win32 : Bool) (aprset : List apr_pollfd_t) (o : SelectOracle) :
    PollOnceSelOutcome :=
  let built := apr_poll_sel_build win32 aprset ([], [], [], -1)
  if built.1 = apr_status.APR_EBADF then
    { status := apr_status.APR_EBADF, nsds := none, aprset := aprset }
  else if o.rv = 0 then
    { status := apr_status.APR_TIMEUP, nsds := some o.rv, aprset := aprset }
  else if o.rv < 0 then
    { status := apr_status.errno o.err, nsds := some o.rv, aprset := aprset }
  else
    let res := apr_poll_sel_result win32 o aprset
    { status := res.1, nsds := some o.rv, aprset := res.2 }

/-- apr_pollset_t without HAVE_POLL: registry count, capacity, the three
persistent bit-vectors with the maximum-handle watermark, the query
registry and the result buffer. -/
structure apr_pollset_sel_t where
  nelts : Nat
  nalloc : Nat
  readset : List Int
  writeset : List Int
  exceptset : List Int
  maxfd : Int
  query_set : List apr_pollfd_t
  result_set : List apr_pollfd_t
deriving DecidableEq

/-- apr_pollset_create without HAVE_POLL: count 0, capacity size, the three
bit-vectors zeroed and maxfd 0. -/
def apr_pollset_create_sel (size : Nat) : apr_pollset_sel_t :=
  { nelts := 0
    nalloc := size
    readset := []
    writeset := []
    exceptset := []
    maxfd := 0
    query_set := List.replicate size default
    result_set := List.replicate size default }

/-- apr_pollset_destroy (same no-op in both backends). -/
def apr_pollset_destroy_sel (ps : apr_pollset_sel_t) : apr_status × apr_pollset_sel_t :=
  (apr_status.APR_SUCCESS, ps)

/-- apr_pollset_add without HAVE_POLL: full registry fails with APR_ENOMEM;
the record is stored at index nelts of query_set before the kind check, so
a WIN32 file record fails with APR_EBADF after that (dead) store with nelts
unchanged; otherwise the handle is marked in each bit-vector whose events
were requested, maxfd is raised if the handle exceeds it, and nelts is
incremented. -/
def apr_pollset_add_sel (win32 : Bool) (ps : apr_pollset_sel_t) (descriptor : apr_pollfd_t) :
    apr_status × apr_pollset_sel_t :=
  if ps.nelts = ps.nalloc then (apr_status.APR_ENOMEM, ps)
  else
    let ps1 := { ps with query_set := ps.query_set.set ps.nelts descriptor }
    if descriptor.desc_type = apr_datatype.APR_POLL_FILE ∧ win32 = true then
      (apr_status.APR_EBADF, ps1)
    else
      let fd := descriptor.descFd
      let rs := if descriptor.reqevents &&& APR_POLLIN ≠ 0 then FD_SET fd ps1.readset else ps1.readset
      let ws := if descriptor.reqevents &&& APR_POLLOUT ≠ 0 then FD_SET fd ps1.writeset else ps1.writeset
      let es := if descriptor.reqevents &&& APR_EXCEPT_MASK ≠ 0 then FD_SET fd ps1.exceptset else ps1.exceptset
      let maxfd := if fd > ps1.maxfd then fd else ps1.maxfd
      (apr_status.APR_SUCCESS,
       { ps1 with readset := rs, writeset := ws, exceptset := es, maxfd := maxfd,
                  nelts := ps.nelts + 1 })

/-- Inner loop of apr_pollset_remove without HAVE_POLL (fuel =
old_nelts - i): identical to the event-list inner loop except that only
query_set is compacted.  dst is never changed, as in the source. -/
def removeInnerS (dptr : Nat) (dst : Nat) : Nat → Nat → apr_pollset_sel_t → apr_pollset_sel_t
  | 0, _, st => st
  | n + 1, i, st =>
    if (st.query_set.getD i default).descPtr = dptr then
      removeInnerS dptr dst n (i + 1) { st with nelts := st.nelts - 1 }
    else
      removeInnerS dptr dst n (i + 1)
        { st with query_set := st.query_set.set dst (st.query_set.getD i default) }

/-- Outer loop of apr_pollset_remove without HAVE_POLL (fuel = nelts - i):
on the first match, compact, clear the handle from the three bit-vectors,
and decrement maxfd by one when the handle equals a positive maxfd. -/
def removeOuterS (dptr : Nat) (fd : Int) :
    Nat → Nat → apr_pollset_sel_t → apr_status × apr_pollset_sel_t
  | 0, _, st => (apr_status.APR_NOTFOUND, st)
  | n + 1, i, st =>
    if (st.query_set.getD i default).descPtr = dptr then
      let st1 := removeInnerS dptr i (st.nelts - (i + 1)) (i + 1) { st with nelts := st.nelts - 1 }
      let st2 := { st1 with readset := FD_CLR fd st1.readset,
                            writeset := FD_CLR fd st1.writeset,
                            exceptset := FD_CLR fd st1.exceptset }
      let st3 := if fd = st2.maxfd ∧ st2.maxfd > 0 then { st2 with maxfd := st2.maxfd - 1 } else st2
      (apr_status.APR_SUCCESS, st3)
    else removeOuterS dptr fd n (i + 1) st

/-- apr_pollset_remove without HAVE_POLL: the handle is read from the
record (socketdes for sockets, filedes otherwise) before the scan. -/
def apr_pollset_remove_sel (ps : apr_pollset_sel_t) (descriptor : apr_pollfd_t) :
    apr_status × apr_pollset_sel_t :=
  let fd : Int :=
    match descriptor.desc_type with
    | apr_datatype.APR_POLL_SOCKET => descriptor.descFd
    | apr_datatype.APR_POLL_FILE => descriptor.descFd
  removeOuterS descriptor.descPtr fd ps.nelts 0 ps

/-- Result-compaction loop of apr_pollset_poll without HAVE_POLL (fuel =
nelts - i): a record whose handle is in any post-wait set is copied into
slot j of the result buffer with rtnevents rebuilt from the three sets; on
a WIN32 build a file record makes the call return APR_EBADF mid-loop.
Returns the status, the rewritten buffer and the final j. -/
def fillLoopS (win32 : Bool) (qs : List apr_pollfd_t) (o : SelectOracle) :
    Nat → Nat → Nat → List apr_pollfd_t → apr_status × List apr_pollfd_t × Nat
  | 0, _, j, rset => (apr_status.APR_SUCCESS, rset, j)
  | n + 1, i, j, rset =>
    let q := qs.getD i default
    if win32 = true ∧ q.desc_type = apr_datatype.APR_POLL_FILE then
      (apr_status.APR_EBADF, rset, j)
    else
      let fd := q.descFd
      if fd ∈ o.readset ∨ fd ∈ o.writeset ∨ fd ∈ o.exceptset then
        fillLoopS win32 qs o n (i + 1) (j + 1)
          (rset.set j { q with rtnevents := sel_revents o fd })
      else fillLoopS win32 qs o n (i + 1) j rset

/-- apr_pollset_poll without HAVE_POLL: the persistent bit-vectors are
copied for the wait (so the registry copies are untouched), nsds is stored,
a negative return yields the errno value, zero yields APR_TIMEUP, and
otherwise the compaction loop rewrites the result buffer; num keeps the
native select return value. -/
def apr_pollset_poll_sel (win32 : Bool) (ps : apr_pollset_sel_t) (o : SelectOracle) :
    apr_status × Int × apr_pollset_sel_t :=
  if o.rv < 0 then (apr_status.errno o.err, o.rv, ps)
  else if o.rv = 0 then (apr_status.APR_TIMEUP, o.rv, ps)
  else
    let fr := fillLoopS win32 ps.query_set o ps.nelts 0 0 ps.result_set
    (fr.1, o.rv, { ps with result_set := fr.2.1 })

/-! ## Spec-side formulations of the ready subset -/

/-- The spec-side entry for index k under the event-list backend: the
query record with rtnevents translated from the native result, when that
result is nonzero. -/
def pollSpecEntry (o : PollOracle) (qs : List apr_pollfd_t) (k : Nat) : Option apr_pollfd_t :=
  if o.revents k ≠ 0 then
    some { qs.getD k default with rtnevents := get_revent (o.revents k) }
  else none

/-- Stated from the spec (section 4.4): the compacted ready subset of the
registry, in registration order, under the event-list backend. -/
def specReady (o : PollOracle) (qs : List apr_pollfd_t) (nelts : Nat) : List apr_pollfd_t :=
  (List.range nelts).filterMap (pollSpecEntry o qs)

/-- The spec-side entry for index k under the bitmap backend: the query
record with rtnevents rebuilt from the three post-wait sets, when its
handle appears in any of them. -/
def selSpecEntry (o : SelectOracle) (qs : List apr_pollfd_t) (k : Nat) : Option apr_pollfd_t :=
  let q := qs.getD k default
  if q.descFd ∈ o.readset ∨ q.descFd ∈ o.writeset ∨ q.descFd ∈ o.exceptset then
    some { q with rtnevents := sel_revents o q.descFd }
  else none

/-- Stated from the spec (section 4.4): the compacted ready subset of the
registry, in registration order, under the bitmap backend. -/
def specReadySel (o : SelectOracle) (qs : List apr_pollfd_t) (nelts : Nat) : List apr_pollfd_t :=
  (List.range nelts).filterMap (selSpecEntry o qs)

/-- The number of registry entries the native poll call reported ready. -/
def countReadyPoll (o : PollOracle) (n : Nat) : Nat :=
  (List.range n).countP fun i => decide (o.revents i ≠ 0)

lemma specReady_length (o : PollOracle) (qs : List apr_pollfd_t) (nelts : Nat) :
    (specReady o qs nelts).length = countReadyPoll o nelts := by
  rw [specReady, countReadyPoll]
  induction (List.range nelts) with
  | nil => rfl
  | cons a t ih =>
    by_cases h : o.revents a ≠ 0 <;>
      simp [List.filterMap_cons, List.countP_cons, pollSpecEntry, h, ih]

/-! ## Characterization of the compaction loops -/

/-- The event-list compaction loop writes exactly the filtered translated
entries at consecutive result slots and returns j advanced by their
number. -/
lemma fillLoopP_eq (psl : List pollfd) (qs : List apr_pollfd_t) :
    ∀ (n i j : Nat) (rset : List apr_pollfd_t),
      fillLoopP psl qs n i j rset =
        (writeAll rset j ((List.range' i n).filterMap fun k =>
          if (psl.getD k default).revents ≠ 0 then
            some { qs.getD k default with rtnevents := get_revent (psl.getD k default).revents }
          else none),
         j + ((List.range' i n).filterMap fun k =>
          if (psl.getD k default).revents ≠ 0 then
            some { qs.getD k default with rtnevents := get_revent (psl.getD k default).revents }
          else none).length) := by
  intro n
  induction n with
  | zero => intro i j rset; simp [fillLoopP, writeAll]
  | succ n ih =>
    intro i j rset
    rw [List.range'_succ]
    by_cases h : (psl.getD i default).revents ≠ 0
    · simp only [fillLoopP, if_pos h, List.filterMap_cons, if_pos h, ih, writeAll,
        List.length_cons]
      exact Prod.ext rfl (by omega)
    · simp only [fillLoopP, if_neg h, List.filterMap_cons, if_neg h, ih]

/-- The bitmap compaction loop, in a non-WIN32 build, always completes with
APR_SUCCESS and writes exactly the filtered rebuilt entries at consecutive
result slots. -/
lemma fillLoopS_eq (qs : List apr_pollfd_t) (o : SelectOracle) :
    ∀ (n i j : Nat) (rset : List apr_pollfd_t),
      fillLoopS false qs o n i j rset =
        (apr_status.APR_SUCCESS,
         writeAll rset j ((List.range' i n).filterMap (selSpecEntry o qs)),
         j + ((List.range' i n).filterMap (selSpecEntry o qs)).length) := by
  intro n
  induction n with
  | zero => intro i j rset; simp [fillLoopS, writeAll]
  | succ n ih =>
    intro i j rset
    rw [List.range'_succ]
    by_cases h : (qs.getD i default).descFd ∈ o.readset ∨
        (qs.getD i default).descFd ∈ o.writeset ∨ (qs.getD i default).descFd ∈ o.exceptset
    · simp only [fillLoopS, Bool.false_eq_true, false_and, if_neg (not_false), if_pos h,
        List.filterMap_cons, selSpecEntry, ih, writeAll, List.length_cons]
      simp only [Prod.mk.injEq, true_and]
      omega
    · simp only [fillLoopS, Bool.false_eq_true, false_and, if_neg (not_false), if_neg h,
        List.filterMap_cons, selSpecEntry, ih]

/-! ## Count bookkeeping of the removal loops -/

/-- Number of registry entries in index window [i, i + n) whose desc
pointer matches dptr. -/
def countMatchesFrom (dptr : Nat) (qs : List apr_pollfd_t) (i n : Nat) : Nat :=
  (List.range' i n).countP fun j => decide ((qs.getD j default).descPtr = dptr)

lemma countMatchesFrom_zero (dptr : Nat) (qs : List apr_pollfd_t) (i : Nat) :
    countMatchesFrom dptr qs i 0 = 0 := rfl

lemma countMatchesFrom_succ (dptr : Nat) (qs : List apr_pollfd_t) (i n : Nat) :
    countMatchesFrom dptr qs i (n + 1) =
      countMatchesFrom dptr qs (i + 1) n +
        (if (qs.getD i default).descPtr = dptr then 1 else 0) := by
  rw [countMatchesFrom, List.range'_succ, List.countP_cons, countMatchesFrom]
  by_cases h : (qs.getD i default).descPtr = dptr <;> simp [h]

/-- Writing at a slot below the window does not change the match count of
the window. -/
lemma countMatchesFrom_set_below (dptr : Nat) (qs : List apr_pollfd_t) (dst : Nat)
    (x : apr_pollfd_t) (i n : Nat) (hdst : dst < i) :
    countMatchesFrom dptr (qs.set dst x) i n = countMatchesFrom dptr qs i n := by
  rw [countMatchesFrom, countMatchesFrom]
  refine List.countP_congr fun j hj => ?_
  have hji : i ≤ j := (List.mem_range'_1.mp hj).1
  have : dst ≠ j := by omega
  rw [getD_set_ne default qs dst j x this]

/-- The inner removal loop (event-list backend) decrements nelts once per
matching window entry and never touches nalloc. -/
lemma removeInnerP_nelts (dptr : Nat) :
    ∀ (n i dst : Nat) (st : apr_pollset_t), dst < i →
      (removeInnerP dptr dst n i st).nelts = st.nelts - countMatchesFrom dptr st.query_set i n ∧
      (removeInnerP dptr dst n i st).nalloc = st.nalloc := by
  intro n
  induction n with
  | zero => intro i dst st _; simp [removeInnerP, countMatchesFrom_zero]
  | succ n ih =>
    intro i dst st hdst
    rw [countMatchesFrom_succ]
    by_cases h : (st.query_set.getD i default).descPtr = dptr
    · have hrec := ih (i + 1) dst { st with nelts := st.nelts - 1 } (Nat.lt_succ_of_lt hdst)
      simp only [removeInnerP, if_pos h] at hrec ⊢
      refine ⟨?_, hrec.2⟩
      rw [hrec.1]
      omega
    · have hrec := ih (i + 1) dst
        { st with
          pollset := st.pollset.set dst (st.pollset.getD i default)
          query_set := st.query_set.set dst (st.query_set.getD i default) }
        (Nat.lt_succ_of_lt hdst)
      simp only [removeInnerP, if_neg h] at hrec ⊢
      refine ⟨?_, hrec.2⟩
      rw [hrec.1]
      rw [countMatchesFrom_set_below dptr st.query_set dst _ (i + 1) n
        (Nat.lt_succ_of_lt hdst)]
      omega

/-- The outer removal loop (event-list backend): the final count is the
old count minus the number of matching registered entries in the scan
window, and the capacity is untouched. -/
lemma removeOuterP_nelts (dptr : Nat) :
    ∀ (n i : Nat) (st : apr_pollset_t), n = st.nelts - i →
      (removeOuterP dptr n i st).2.nelts = st.nelts - countMatchesFrom dptr st.query_set i n ∧
      (removeOuterP dptr n i st).2.nalloc = st.nalloc := by
  intro n
  induction n with
  | zero => intro i st _; simp [removeOuterP, countMatchesFrom_zero]
  | succ n ih =>
    intro i st hn
    rw [countMatchesFrom_succ]
    by_cases h : (st.query_set.getD i default).descPtr = dptr
    · have hfuel : st.nelts - (i + 1) = n := by omega
      have hrec := removeInnerP_nelts dptr n (i + 1) i
        { st with nelts := st.nelts - 1 } (Nat.lt_succ_self i)
      simp only at hrec
      simp only [removeOuterP, if_pos h, hfuel]
      refine ⟨?_, hrec.2⟩
      rw [hrec.1]
      omega
    · have hrec := ih (i + 1) st (by omega)
      simp only [removeOuterP, if_neg h]
      refine ⟨?_, hrec.2⟩
      rw [hrec.1]
      omega

/-- The inner removal loop (bitmap backend): same count bookkeeping. -/
lemma removeInnerS_nelts (dptr : Nat) :
    ∀ (n i dst : Nat) (st : apr_pollset_sel_t), dst < i →
      (removeInnerS dptr dst n i st).nelts = st.nelts - countMatchesFrom dptr st.query_set i n ∧
      (removeInnerS dptr dst n i st).nalloc = st.nalloc := by
  intro n
  induction n with
  | zero => intro i dst st _; simp [removeInnerS, countMatchesFrom_zero]
  | succ n ih =>
    intro i dst st hdst
    rw [countMatchesFrom_succ]
    by_cases h : (st.query_set.getD i default).descPtr = dptr
    · have hrec := ih (i + 1) dst { st with nelts := st.nelts - 1 } (Nat.lt_succ_of_lt hdst)
      simp only [removeInnerS, if_pos h] at hrec ⊢
      refine ⟨?_, hrec.2⟩
      rw [hrec.1]
      omega
    · have hrec := ih (i + 1) dst
        { st with query_set := st.query_set.set dst (st.query_set.getD i default) }
        (Nat.lt_succ_of_lt hdst)
      simp only [removeInnerS, if_neg h] at hrec ⊢
      refine ⟨?_, hrec.2⟩
      rw [hrec.1]
      rw [countMatchesFrom_set_below dptr st.query_set dst _ (i + 1) n
        (Nat.lt_succ_of_lt hdst)]
      omega

/-- The outer removal loop (bitmap backend): final count as above; the
bit-vector clearing and watermark step does not touch the counts. -/
lemma removeOuterS_nelts (dptr : Nat) (fd : Int) :
    ∀ (n i : Nat) (st : apr_pollset_sel_t), n = st.nelts - i →
      (removeOuterS dptr fd n i st).2.nelts = st.nelts - countMatchesFrom dptr st.query_set i n ∧
      (removeOuterS dptr fd n i st).2.nalloc = st.nalloc := by
  intro n
  induction n with
  | zero => intro i st _; simp [removeOuterS, countMatchesFrom_zero]
  | succ n ih =>
    intro i st hn
    rw [countMatchesFrom_succ]
    by_cases h : (st.query_set.getD i default).descPtr = dptr
    · have hfuel : st.nelts - (i + 1) = n := by omega
      have hrec := removeInnerS_nelts dptr n (i + 1) i
        { st with nelts := st.nelts - 1 } (Nat.lt_succ_self i)
      simp only at hrec
      simp only [removeOuterS, if_pos h, hfuel]
      constructor
      · split
        · dsimp only
          rw [hrec.1]
          omega
        · dsimp only
          rw [hrec.1]
          omega
      · split
        · dsimp only
          rw [hrec.2]
        · dsimp only
          rw [hrec.2]
    · have hrec := ih (i + 1) st (by omega)
      simp only [removeOuterS, if_neg h]
      refine ⟨?_, hrec.2⟩
      rw [hrec.1]
      omega

/-! ## Well-formedness of pollset states -/

/-- A well-formed event-list pollset: count within capacity and all three
arrays allocated at capacity. -/
abbrev PWF (ps : apr_pollset_t) : Prop :=
  ps.nelts ≤ ps.nalloc ∧ ps.pollset.length = ps.nalloc ∧
  ps.query_set.length = ps.nalloc ∧ ps.result_set.length = ps.nalloc

/-- A well-formed bitmap pollset: count within capacity and both record
arrays allocated at capacity. -/
abbrev SWF (ps : apr_pollset_sel_t) : Prop :=
  ps.nelts ≤ ps.nalloc ∧ ps.query_set.length = ps.nalloc ∧ ps.result_set.length = ps.nalloc

/-! ## Concrete scenarios -/

/-- Registration of socket object 1 (handle 11) for Readable. -/
def recA : apr_pollfd_t := ⟨apr_datatype.APR_POLL_SOCKET, 1, 11, APR_POLLIN, 0, 0⟩

/-- A second registration of the same socket object 1 for Writable. -/
def recA2 : apr_pollfd_t := ⟨apr_datatype.APR_POLL_SOCKET, 1, 11, APR_POLLOUT, 0, 0⟩

/-- Registration of socket object 2 (handle 12). -/
def recB : apr_pollfd_t := ⟨apr_datatype.APR_POLL_SOCKET, 2, 12, APR_POLLIN, 0, 0⟩

/-- Registration of socket object 3 (handle 13). -/
def recC : apr_pollfd_t := ⟨apr_datatype.APR_POLL_SOCKET, 3, 13, APR_POLLIN, 0, 0⟩

/-- An event-list pollset holding [A, A, B, C]: socket 1 registered twice,
then sockets 2 and 3. -/
def removeScenario : apr_pollset_t :=
  { nelts := 4
    nalloc := 4
    pollset := [⟨11, 1, 0⟩, ⟨11, 4, 0⟩, ⟨12, 1, 0⟩, ⟨13, 1, 0⟩]
    query_set := [recA, recA2, recB, recC]
    result_set := List.replicate 4 default }

/-- C1 (the claim fails on the code): removing descriptor A from the
registry [A, A, B, C] succeeds and decrements the count by the number of
matches (4 - 2 = 2), but because the compaction destination index is never
advanced, the surviving valid prefix of query_set is [C, A] instead of the
claimed [B, C]: an entry matching the removed descriptor survives in the
valid region, survivor B is dropped, the relative order is not preserved
(in the parallel native array as well), and a second remove of the same
descriptor then succeeds instead of failing with APR_NOTFOUND. -/
theorem pollset_remove_compaction_bug :
    (apr_pollset_remove removeScenario recA).1 = apr_status.APR_SUCCESS ∧
    (apr_pollset_remove removeScenario recA).2.nelts = 2 ∧
    (apr_pollset_remove removeScenario recA).2.query_set.take 2 = [recC, recA2] ∧
    ((apr_pollset_remove removeScenario recA).2.pollset.take 2).map pollfd.fd = [13, 11] ∧
    ¬ ((apr_pollset_remove removeScenario recA).2.query_set.take 2 = [recB, recC]) ∧
    (∃ q ∈ (apr_pollset_remove removeScenario recA).2.query_set.take 2,
      q.descPtr = recA.descPtr) ∧
    (apr_pollset_remove (apr_pollset_remove removeScenario recA).2 recA).1 =
      apr_status.APR_SUCCESS := by decide

/-- A bitmap pollset with one socket (object 1, handle 5) registered for
Readable and Writable. -/
def selScenario : apr_pollset_sel_t :=
  { nelts := 1
    nalloc := 1
    readset := [5]
    writeset := [5]
    exceptset := []
    maxfd := 5
    query_set := [⟨apr_datatype.APR_POLL_SOCKET, 1, 5, APR_POLLIN ||| APR_POLLOUT, 0, 0⟩]
    result_set := [default] }

/-- A select call on that pollset reporting handle 5 both readable and
writable: select counts per-event bits, so its return value is 2. -/
def selScenarioOracle : SelectOracle := ⟨2, 0, [5], [5], []⟩

/-- C2 counterexample: on the bitmap backend a wait that ends with handle 5
ready for read and write reports num = 2 (the native select return), while
only one result_set entry is populated (the compaction counter j ends at
1), so the reported ready count does not equal the number of populated
result_set entries. -/
theorem pollset_poll_sel_count_cex :
    (apr_pollset_poll_sel false selScenario selScenarioOracle).1 = apr_status.APR_SUCCESS ∧
    (apr_pollset_poll_sel false selScenario selScenarioOracle).2.1 = 2 ∧
    (fillLoopS false selScenario.query_set selScenarioOracle selScenario.nelts 0 0
        selScenario.result_set).2.2 = 1 ∧
    (specReadySel selScenarioOracle selScenario.query_set selScenario.nelts).length = 1 := by
  decide

/-- A file-descriptor record (file object 9, handle 7). -/
def fileRec : apr_pollfd_t := ⟨apr_datatype.APR_POLL_FILE, 9, 7, APR_POLLIN, 0, 0⟩

/-- C3 counterexample: on the bitmap backend of a WIN32 build, adding a
file record to a freshly created pollset of capacity 1 (so count 0 <
capacity 1) does not succeed: it fails with APR_EBADF, leaving the count
unchanged. -/
theorem pollset_add_file_win32_cex :
    (apr_pollset_create_sel 1).nelts < (apr_pollset_create_sel 1).nalloc ∧
    (apr_pollset_add_sel true (apr_pollset_create_sel 1) fileRec).1 ≠ apr_status.APR_SUCCESS ∧
    (apr_pollset_add_sel true (apr_pollset_create_sel 1) fileRec).1 = apr_status.APR_EBADF ∧
    (apr_pollset_add_sel true (apr_pollset_create_sel 1) fileRec).2.nelts =
      (apr_pollset_create_sel 1).nelts := by decide

/-- C9: every pollset operation preserves 0 ≤ count ≤ capacity, in both
backends: create starts the count at 0 with the requested capacity; add
never changes the capacity, keeps the count within it, leaves the count
unchanged exactly when the registry is full and otherwise increments it by
one (event-list backend; the bitmap add also keeps the bound on every
path); remove subtracts exactly the number of matching registered entries,
so it decrements at most once per registered entry and never touches the
capacity; poll and destroy change neither count nor capacity. -/
theorem pollset_count_invariant :
    (∀ size : Nat, (apr_pollset_create size).nelts = 0 ∧
      (apr_pollset_create size).nalloc = size) ∧
    (∀ size : Nat, (apr_pollset_create_sel size).nelts = 0 ∧
      (apr_pollset_create_sel size).nalloc = size) ∧
    (∀ (ps : apr_pollset_t) (d : apr_pollfd_t), ps.nelts ≤ ps.nalloc →
      (apr_pollset_add ps d).2.nalloc = ps.nalloc ∧
      (apr_pollset_add ps d).2.nelts ≤ ps.nalloc ∧
      (ps.nelts = ps.nalloc → (apr_pollset_add ps d).2.nelts = ps.nelts) ∧
      (ps.nelts ≠ ps.nalloc → (apr_pollset_add ps d).2.nelts = ps.nelts + 1)) ∧
    (∀ (w : Bool) (ps : apr_pollset_sel_t) (d : apr_pollfd_t), ps.nelts ≤ ps.nalloc →
      (apr_pollset_add_sel w ps d).2.nalloc = ps.nalloc ∧
      (apr_pollset_add_sel w ps d).2.nelts ≤ ps.nalloc) ∧
    (∀ (ps : apr_pollset_t) (d : apr_pollfd_t),
      (apr_pollset_remove ps d).2.nelts =
        ps.nelts - countMatchesFrom d.descPtr ps.query_set 0 ps.nelts ∧
      (apr_pollset_remove ps d).2.nelts ≤ ps.nelts ∧
      (apr_pollset_remove ps d).2.nalloc = ps.nalloc) ∧
    (∀ (ps : apr_pollset_sel_t) (d : apr_pollfd_t),
      (apr_pollset_remove_sel ps d).2.nelts =
        ps.nelts - countMatchesFrom d.descPtr ps.query_set 0 ps.nelts ∧
      (apr_pollset_remove_sel ps d).2.nelts ≤ ps.nelts ∧
      (apr_pollset_remove_sel ps d).2.nalloc = ps.nalloc) ∧
    (∀ (ps : apr_pollset_t) (o : PollOracle),
      (apr_pollset_poll ps o).2.2.nelts = ps.nelts ∧
      (apr_pollset_poll ps o).2.2.nalloc = ps.nalloc) ∧
    (∀ (w : Bool) (ps : apr_pollset_sel_t) (o : SelectOracle),
      (apr_pollset_poll_sel w ps o).2.2.nelts = ps.nelts ∧
      (apr_pollset_poll_sel w ps o).2.2.nalloc = ps.nalloc) ∧
    (∀ ps : apr_pollset_t, apr_pollset_destroy ps = (apr_status.APR_SUCCESS, ps)) ∧
    (∀ ps : apr_pollset_sel_t, apr_pollset_destroy_sel ps = (apr_status.APR_SUCCESS, ps)) := by
  refine ⟨fun size => ⟨rfl, rfl⟩, fun size => ⟨rfl, rfl⟩, ?_, ?_, ?_, ?_, ?_, ?_,
    fun ps => rfl, fun ps => rfl⟩
  · intro ps d hle
    by_cases h : ps.nelts = ps.nalloc
    · simp [apr_pollset_add, h]
    · simp [apr_pollset_add, h]
      omega
  · intro w ps d hle
    by_cases h : ps.nelts = ps.nalloc
    · simp [apr_pollset_add_sel, h, hle]
    · by_cases hf : d.desc_type = apr_datatype.APR_POLL_FILE ∧ w = true
      · simp [apr_pollset_add_sel, h, hf]
        omega
      · simp [apr_pollset_add_sel, h, hf]
        omega
  · intro ps d
    have h := removeOuterP_nelts d.descPtr ps.nelts 0 ps (by omega)
    simp only [apr_pollset_remove]
    exact ⟨h.1, by rw [h.1]; exact Nat.sub_le _ _, h.2⟩
  · intro ps d
    have h := removeOuterS_nelts d.descPtr
      (match d.desc_type with
       | apr_datatype.APR_POLL_SOCKET => d.descFd
       | apr_datatype.APR_POLL_FILE => d.descFd) ps.nelts 0 ps (by omega)
    simp only [apr_pollset_remove_sel]
    exact ⟨h.1, by rw [h.1]; exact Nat.sub_le _ _, h.2⟩
  · intro ps o
    by_cases h1 : o.rv < 0
    · simp [apr_pollset_poll, h1]
    · by_cases h2 : o.rv = 0 <;> simp [apr_pollset_poll, h1, h2]
  · intro w ps o
    by_cases h1 : o.rv < 0
    · simp [apr_pollset_poll_sel, h1]
    · by_cases h2 : o.rv = 0 <;> simp [apr_pollset_poll_sel, h1, h2]

/-- Witness for pollset_count_invariant: a full pollset of capacity 4
rejects an add with the count unchanged, and removing descriptor A
subtracts exactly its two matching registrations. -/
theorem pollset_count_invariant_witness :
    removeScenario.nelts ≤ removeScenario.nalloc ∧
    (apr_pollset_add removeScenario recA).2.nelts = removeScenario.nelts ∧
    (apr_pollset_remove removeScenario recA).2.nelts =
      removeScenario.nelts -
        countMatchesFrom recA.descPtr removeScenario.query_set 0 removeScenario.nelts :=
  ⟨by decide,
   (pollset_count_invariant.2.2.1 removeScenario recA (by decide)).2.2.1 rfl,
   (pollset_count_invariant.2.2.2.2.1 removeScenario recA).1⟩

/-! ## Helper characterizations of the waits -/

lemma pollset_filled_revents (ps : apr_pollset_t) (o : PollOracle) (k : Nat)
    (h1 : k < ps.nelts) (h2 : ps.nelts ≤ ps.pollset.length) :
    ((pollset_filled ps o).getD k default).revents = o.revents k := by
  rw [pollset_filled, mapIdxFrom_getD _ _ _ 0 k (lt_of_lt_of_le h1 h2)]
  simp [h1]

/-- Successful event-list pollset wait: status, stored num, and the
result-set prefix, characterized against the spec-side ready subset. -/
lemma apr_pollset_poll_pos (ps : apr_pollset_t) (o : PollOracle)
    (hwf : PWF ps) (hrv : 0 < o.rv) :
    (apr_pollset_poll ps o).1 = apr_status.APR_SUCCESS ∧
    (apr_pollset_poll ps o).2.1 = o.rv ∧
    (apr_pollset_poll ps o).2.2.result_set.take (specReady o ps.query_set ps.nelts).length =
      specReady o ps.query_set ps.nelts := by
  obtain ⟨hcap, hpl, hql, hrl⟩ := hwf
  have hneg : ¬ o.rv < 0 := by omega
  have hz : ¬ o.rv = 0 := by omega
  have hlist : ((List.range' 0 ps.nelts).filterMap fun k =>
      if ((pollset_filled ps o).getD k default).revents ≠ 0 then
        some { ps.query_set.getD k default with
               rtnevents := get_revent ((pollset_filled ps o).getD k default).revents }
      else none) = specReady o ps.query_set ps.nelts := by
    rw [specReady, List.range_eq_range']
    refine filterMap_congr_mem _ _ _ fun k hk => ?_
    have hklt : k < ps.nelts := by
      have := List.mem_range'_1.mp hk
      omega
    have hrev := pollset_filled_revents ps o k hklt (by omega)
    rw [hrev, pollSpecEntry]
  have hfill := fillLoopP_eq (pollset_filled ps o) ps.query_set ps.nelts 0 0 ps.result_set
  rw [hlist] at hfill
  have hlen : (specReady o ps.query_set ps.nelts).length ≤ ps.result_set.length := by
    have h1 : (specReady o ps.query_set ps.nelts).length ≤ ps.nelts := by
      rw [specReady]
      calc ((List.range ps.nelts).filterMap (pollSpecEntry o ps.query_set)).length
          ≤ (List.range ps.nelts).length := List.length_filterMap_le _ _
        _ = ps.nelts := List.length_range ps.nelts
    omega
  refine ⟨?_, ?_, ?_⟩
  · simp only [apr_pollset_poll, if_neg hneg, if_neg hz]
  · simp only [apr_pollset_poll, if_neg hneg, if_neg hz]
  · simp only [apr_pollset_poll, if_neg hneg, if_neg hz]
    rw [hfill]
    simpa using writeAll_take (specReady o ps.query_set ps.nelts) ps.result_set 0
      (by simpa using hlen)

/-- Successful bitmap pollset wait (non-WIN32 build): status, stored num,
and the result-set prefix against the spec-side ready subset. -/
lemma apr_pollset_poll_sel_pos (ps : apr_pollset_sel_t) (o : SelectOracle)
    (hwf : SWF ps) (hrv : 0 < o.rv) :
    (apr_pollset_poll_sel false ps o).1 = apr_status.APR_SUCCESS ∧
    (apr_pollset_poll_sel false ps o).2.1 = o.rv ∧
    (apr_pollset_poll_sel false ps o).2.2.result_set.take
        (specReadySel o ps.query_set ps.nelts).length =
      specReadySel o ps.query_set ps.nelts := by
  obtain ⟨hcap, hql, hrl⟩ := hwf
  have hneg : ¬ o.rv < 0 := by omega
  have hz : ¬ o.rv = 0 := by omega
  have hfill := fillLoopS_eq ps.query_set o ps.nelts 0 0 ps.result_set
  have hspec : (List.range' 0 ps.nelts).filterMap (selSpecEntry o ps.query_set) =
      specReadySel o ps.query_set ps.nelts := by
    rw [specReadySel, List.range_eq_range']
  rw [hspec] at hfill
  have hlen : (specReadySel o ps.query_set ps.nelts).length ≤ ps.result_set.length := by
    have h1 : (specReadySel o ps.query_set ps.nelts).length ≤ ps.nelts := by
      rw [specReadySel]
      calc ((List.range ps.nelts).filterMap (selSpecEntry o ps.query_set)).length
          ≤ (List.range ps.nelts).length := List.length_filterMap_le _ _
        _ = ps.nelts := List.length_range ps.nelts
    omega
  refine ⟨?_, ?_, ?_⟩
  · simp only [apr_pollset_poll_sel, if_neg hneg, if_neg hz]
    rw [hfill]
  · simp only [apr_pollset_poll_sel, if_neg hneg, if_neg hz]
  · simp only [apr_pollset_poll_sel, if_neg hneg, if_neg hz]
    rw [hfill]
    simpa using writeAll_take (specReadySel o ps.query_set ps.nelts) ps.result_set 0
      (by simpa using hlen)

lemma mem_FD_SET_self (fd : Int) (s : List Int) : fd ∈ FD_SET fd s := by
  by_cases h : fd ∈ s <;> simp [FD_SET, h]

/-- The bitmap result word carries only the Readable, Writable and Error
bits. -/
lemma sel_revents_mask (o : SelectOracle) (fd : Int) :
    sel_revents o fd &&& (APR_POLLIN ||| APR_POLLOUT ||| APR_POLLERR) = sel_revents o fd := by
  by_cases h1 : fd ∈ o.readset <;> by_cases h2 : fd ∈ o.writeset <;>
    by_cases h3 : fd ∈ o.exceptset <;> simp [sel_revents, h1, h2, h3] <;> decide

/-- Every entry of the spec-side bitmap ready subset carries a result word
built by sel_revents. -/
lemma specReadySel_rtnevents (o : SelectOracle) (qs : List apr_pollfd_t) (n : Nat) :
    ∀ r ∈ specReadySel o qs n, ∃ fd, r.rtnevents = sel_revents o fd := by
  intro r hr
  rw [specReadySel] at hr
  obtain ⟨k, _, hk⟩ := List.mem_filterMap.mp hr
  simp only [selSpecEntry] at hk
  by_cases hc : (qs.getD k default).descFd ∈ o.readset ∨
      (qs.getD k default).descFd ∈ o.writeset ∨ (qs.getD k default).descFd ∈ o.exceptset
  · rw [if_pos hc] at hk
    refine ⟨(qs.getD k default).descFd, ?_⟩
    rw [← Option.some_inj.mp hk]
  · rw [if_neg hc] at hk
    exact absurd hk (by simp)

/-- On a WIN32 build the request-construction loop of the bitmap one-shot
call fails with APR_EBADF as soon as any record is a file record. -/
lemma apr_poll_sel_build_file :
    ∀ (l : List apr_pollfd_t) (acc : List Int × List Int × List Int × Int)
      (d : apr_pollfd_t), d ∈ l → d.desc_type = apr_datatype.APR_POLL_FILE →
      (apr_poll_sel_build true l acc).1 = apr_status.APR_EBADF := by
  intro l
  induction l with
  | nil => intro acc d hd _; simp at hd
  | cons r rest ih =>
    intro acc d hd hf
    obtain ⟨rs, ws, es, maxfd⟩ := acc
    by_cases hr : r.desc_type = apr_datatype.APR_POLL_FILE
    · simp [apr_poll_sel_build, hr]
    · simp only [apr_poll_sel_build]
      rw [if_neg (by simp [hr])]
      rcases List.mem_cons.mp hd with rfl | hmem
      · exact absurd hf hr
      · exact ih _ d hmem hf

/-- When the bitmap one-shot result loop completes, every record has been
rewritten with the sel_revents word of its handle. -/
lemma apr_poll_sel_result_success (w : Bool) (o : SelectOracle) :
    ∀ l : List apr_pollfd_t, (apr_poll_sel_result w o l).1 = apr_status.APR_SUCCESS →
      (apr_poll_sel_result w o l).2 =
        l.map fun r => { r with rtnevents := sel_revents o r.descFd } := by
  intro l
  induction l with
  | nil => intro _; rfl
  | cons r rest ih =>
    intro hs
    by_cases hr : w = true ∧ r.desc_type = apr_datatype.APR_POLL_FILE
    · rw [apr_poll_sel_result, if_pos hr] at hs
      simp at hs
    · simp only [apr_poll_sel_result, if_neg hr] at hs ⊢
      simp [List.map_cons, ih hs]

/-! ## Claim theorems on the waits -/

/-- C2 (amended): when a pollset wait succeeds with a positive native
return, the walk over the native results in registration order copies
exactly the entries with a nonzero native result, in order, into the
leading slots of result_set with returned_events translated from the
native result — on both backends.  The event-list backend reports num as
the native poll return, which under the poll(2) contract (one count per
descriptor with nonzero revents) equals the number of populated entries;
the bitmap backend also reports the native select return, which counts
per-event bits and can differ from the number of populated entries (see
the counterexample). -/
theorem pollset_poll_compaction :
    (∀ (ps : apr_pollset_t) (o : PollOracle), PWF ps → 0 < o.rv →
      (apr_pollset_poll ps o).1 = apr_status.APR_SUCCESS ∧
      (apr_pollset_poll ps o).2.2.result_set.take (specReady o ps.query_set ps.nelts).length =
        specReady o ps.query_set ps.nelts ∧
      (apr_pollset_poll ps o).2.1 = o.rv ∧
      (o.rv = (countReadyPoll o ps.nelts : Int) →
        (apr_pollset_poll ps o).2.1 = ((specReady o ps.query_set ps.nelts).length : Int))) ∧
    (∀ (ps : apr_pollset_sel_t) (o : SelectOracle), SWF ps → 0 < o.rv →
      (apr_pollset_poll_sel false ps o).1 = apr_status.APR_SUCCESS ∧
      (apr_pollset_poll_sel false ps o).2.2.result_set.take
          (specReadySel o ps.query_set ps.nelts).length =
        specReadySel o ps.query_set ps.nelts ∧
      (apr_pollset_poll_sel false ps o).2.1 = o.rv) := by
  constructor
  · intro ps o hwf hrv
    obtain ⟨hst, hnum, hpre⟩ := apr_pollset_poll_pos ps o hwf hrv
    refine ⟨hst, hpre, hnum, fun hc => ?_⟩
    rw [hnum, hc, specReady_length]
  · intro ps o hwf hrv
    obtain ⟨hst, hnum, hpre⟩ := apr_pollset_poll_sel_pos ps o hwf hrv
    exact ⟨hst, hpre, hnum⟩

/-- An event-list pollset holding [A, B, C] with native entries ready at
indices 0 and 2. -/
def pollScenario : apr_pollset_t :=
  { nelts := 3
    nalloc := 3
    pollset := [⟨11, 1, 0⟩, ⟨12, 1, 0⟩, ⟨13, 1, 0⟩]
    query_set := [recA, recB, recC]
    result_set := List.replicate 3 default }

/-- A poll call reporting entries 0 and 2 readable (return value 2, one
per descriptor with nonzero revents). -/
def pollScenarioOracle : PollOracle :=
  ⟨2, 0, fun i => if i = 0 ∨ i = 2 then POLLIN else 0⟩

/-- Witness for pollset_poll_compaction: registering A, B, C and making A
and C ready yields a result prefix of exactly the translated A and C, in
that order, with the reported count 2. -/
theorem pollset_poll_compaction_witness :
    PWF pollScenario ∧ 0 < pollScenarioOracle.rv ∧
    (apr_pollset_poll pollScenario pollScenarioOracle).1 = apr_status.APR_SUCCESS ∧
    (apr_pollset_poll pollScenario pollScenarioOracle).2.2.result_set.take
        (specReady pollScenarioOracle pollScenario.query_set pollScenario.nelts).length =
      specReady pollScenarioOracle pollScenario.query_set pollScenario.nelts :=
  ⟨by decide, by decide,
   (pollset_poll_compaction.1 pollScenario pollScenarioOracle (by decide) (by decide)).1,
   (pollset_poll_compaction.1 pollScenario pollScenarioOracle (by decide) (by decide)).2.1⟩

/-- C4: for both the one-shot call and the pollset wait of the event-list
backend, and the bitmap pollset wait, the stored ready count is the native
return value; a negative native return makes the call report the platform
errno value verbatim, a zero return reports APR_TIMEUP (a timeout, not an
error), and a positive return reports APR_SUCCESS; under the native
contract that the return value counts the ready descriptors, the reported
count is the number of ready descriptors. -/
theorem poll_wait_status :
    (∀ (aprset : List apr_pollfd_t) (o : PollOracle),
      (o.rv < 0 → (apr_poll aprset o).1 = apr_status.errno o.err) ∧
      (o.rv = 0 → (apr_poll aprset o).1 = apr_status.APR_TIMEUP) ∧
      (0 < o.rv → (apr_poll aprset o).1 = apr_status.APR_SUCCESS) ∧
      (apr_poll aprset o).2.1 = o.rv ∧
      (o.rv = (countReadyPoll o aprset.length : Int) →
        (apr_poll aprset o).2.1 = (countReadyPoll o aprset.length : Int))) ∧
    (∀ (ps : apr_pollset_t) (o : PollOracle),
      (o.rv < 0 → (apr_pollset_poll ps o).1 = apr_status.errno o.err) ∧
      (o.rv = 0 → (apr_pollset_poll ps o).1 = apr_status.APR_TIMEUP) ∧
      (0 < o.rv → (apr_pollset_poll ps o).1 = apr_status.APR_SUCCESS) ∧
      (apr_pollset_poll ps o).2.1 = o.rv ∧
      (o.rv = (countReadyPoll o ps.nelts : Int) →
        (apr_pollset_poll ps o).2.1 = (countReadyPoll o ps.nelts : Int))) ∧
    (∀ (ps : apr_pollset_sel_t) (o : SelectOracle),
      (o.rv < 0 → (apr_pollset_poll_sel false ps o).1 = apr_status.errno o.err) ∧
      (o.rv = 0 → (apr_pollset_poll_sel false ps o).1 = apr_status.APR_TIMEUP) ∧
      (0 < o.rv → (apr_pollset_poll_sel false ps o).1 = apr_status.APR_SUCCESS) ∧
      (apr_pollset_poll_sel false ps o).2.1 = o.rv) := by
  refine ⟨fun aprset o => ?_, fun ps o => ?_, fun ps o => ?_⟩
  · refine ⟨fun h => ?_, fun h => ?_, fun h => ?_, rfl, fun hc => hc ▸ rfl⟩
    · simp [apr_poll, apr_poll_status, h]
    · simp [apr_poll, apr_poll_status, h]
    · have h1 : ¬ o.rv < 0 := by omega
      have h2 : ¬ o.rv = 0 := by omega
      simp [apr_poll, apr_poll_status, h1, h2]
  · refine ⟨fun h => ?_, fun h => ?_, fun h => ?_, ?_, ?_⟩
    · simp [apr_pollset_poll, h]
    · have h1 : ¬ o.rv < 0 := by omega
      simp [apr_pollset_poll, h1, h]
    · have h1 : ¬ o.rv < 0 := by omega
      have h2 : ¬ o.rv = 0 := by omega
      simp [apr_pollset_poll, h1, h2]
    · by_cases h1 : o.rv < 0
      · simp [apr_pollset_poll, h1]
      · by_cases h2 : o.rv = 0 <;> simp [apr_pollset_poll, h1, h2]
    · intro hc
      have hnum : (apr_pollset_poll ps o).2.1 = o.rv := by
        by_cases h1 : o.rv < 0
        · simp [apr_pollset_poll, h1]
        · by_cases h2 : o.rv = 0 <;> simp [apr_pollset_poll, h1, h2]
      rw [hnum, hc]
  · have hfill := fillLoopS_eq ps.query_set o ps.nelts 0 0 ps.result_set
    refine ⟨fun h => ?_, fun h => ?_, fun h => ?_, ?_⟩
    · simp [apr_pollset_poll_sel, h]
    · have h1 : ¬ o.rv < 0 := by omega
      simp [apr_pollset_poll_sel, h1, h]
    · have h1 : ¬ o.rv < 0 := by omega
      have h2 : ¬ o.rv = 0 := by omega
      simp only [apr_pollset_poll_sel, if_neg h1, if_neg h2]
      rw [hfill]
    · by_cases h1 : o.rv < 0
      · simp [apr_pollset_poll_sel, h1]
      · by_cases h2 : o.rv = 0 <;> simp [apr_pollset_poll_sel, h1, h2]

/-- A native call reporting no descriptor ready. -/
def zeroOracle : PollOracle := ⟨0, 0, fun _ => 0⟩

/-- A native call failing with errno 5 (EIO). -/
def failOracle : PollOracle := ⟨-1, 5, fun _ => 0⟩

/-- Witness for poll_wait_status: a zero-ready pollset wait reports
APR_TIMEUP and a failing one-shot wait reports the errno value 5
verbatim. -/
theorem poll_wait_status_witness :
    zeroOracle.rv = 0 ∧ failOracle.rv < 0 ∧
    (apr_pollset_poll removeScenario zeroOracle).1 = apr_status.APR_TIMEUP ∧
    (apr_poll [recA] failOracle).1 = apr_status.errno failOracle.err :=
  ⟨by decide, by decide,
   (poll_wait_status.2.1 removeScenario zeroOracle).2.1 (by decide),
   (poll_wait_status.1 [recA] failOracle).1 (by decide)⟩

/-! ## Claim theorems on add -/

/-- C3 (amended): a full pollset rejects add with APR_ENOMEM and is left
completely unchanged, in both backends; a non-full event-list pollset
always accepts: the record is appended to query_set at index count, the
native shadow entry at that index gets the handle and translated events,
lower entries are untouched, and count is incremented; a non-full bitmap
pollset accepts under the same description — the handle is marked in each
requested bit-vector and the watermark is raised exactly when the handle
exceeds it — except that on a WIN32 build a file record is instead
rejected with APR_EBADF, count unchanged (the not-supported rejection of
C7). -/
theorem pollset_add_behavior :
    (∀ (ps : apr_pollset_t) (d : apr_pollfd_t), ps.nelts = ps.nalloc →
      apr_pollset_add ps d = (apr_status.APR_ENOMEM, ps)) ∧
    (∀ (ps : apr_pollset_t) (d : apr_pollfd_t), PWF ps → ps.nelts ≠ ps.nalloc →
      (apr_pollset_add ps d).1 = apr_status.APR_SUCCESS ∧
      (apr_pollset_add ps d).2.nelts = ps.nelts + 1 ∧
      (apr_pollset_add ps d).2.query_set.getD ps.nelts default = d ∧
      ((apr_pollset_add ps d).2.pollset.getD ps.nelts default).fd = d.descFd ∧
      ((apr_pollset_add ps d).2.pollset.getD ps.nelts default).events =
        get_event d.reqevents ∧
      (∀ i < ps.nelts,
        (apr_pollset_add ps d).2.query_set.getD i default = ps.query_set.getD i default ∧
        (apr_pollset_add ps d).2.pollset.getD i default = ps.pollset.getD i default)) ∧
    (∀ (w : Bool) (ps : apr_pollset_sel_t) (d : apr_pollfd_t), ps.nelts = ps.nalloc →
      apr_pollset_add_sel w ps d = (apr_status.APR_ENOMEM, ps)) ∧
    (∀ (w : Bool) (ps : apr_pollset_sel_t) (d : apr_pollfd_t), SWF ps →
      ps.nelts ≠ ps.nalloc →
      ¬ (d.desc_type = apr_datatype.APR_POLL_FILE ∧ w = true) →
      (apr_pollset_add_sel w ps d).1 = apr_status.APR_SUCCESS ∧
      (apr_pollset_add_sel w ps d).2.nelts = ps.nelts + 1 ∧
      (apr_pollset_add_sel w ps d).2.query_set.getD ps.nelts default = d ∧
      (d.reqevents &&& APR_POLLIN ≠ 0 → d.descFd ∈ (apr_pollset_add_sel w ps d).2.readset) ∧
      (d.reqevents &&& APR_POLLOUT ≠ 0 → d.descFd ∈ (apr_pollset_add_sel w ps d).2.writeset) ∧
      (d.reqevents &&& APR_EXCEPT_MASK ≠ 0 →
        d.descFd ∈ (apr_pollset_add_sel w ps d).2.exceptset) ∧
      (d.descFd > ps.maxfd → (apr_pollset_add_sel w ps d).2.maxfd = d.descFd) ∧
      (¬ d.descFd > ps.maxfd → (apr_pollset_add_sel w ps d).2.maxfd = ps.maxfd)) ∧
    (∀ (ps : apr_pollset_sel_t) (d : apr_pollfd_t), ps.nelts ≠ ps.nalloc →
      d.desc_type = apr_datatype.APR_POLL_FILE →
      (apr_pollset_add_sel true ps d).1 = apr_status.APR_EBADF ∧
      (apr_pollset_add_sel true ps d).2.nelts = ps.nelts) := by
  refine ⟨fun ps d h => ?_, fun ps d hwf hne => ?_, fun w ps d h => ?_,
    fun w ps d hwf hne hnf => ?_, fun ps d hne hf => ?_⟩
  · simp only [apr_pollset_add, if_pos h]
  · obtain ⟨hcap, hpl, hql, hrl⟩ := hwf
    have hlt : ps.nelts < ps.nalloc := lt_of_le_of_ne hcap hne
    simp only [apr_pollset_add, if_neg hne]
    refine ⟨trivial, trivial, ?_, ?_, ?_, ?_⟩
    · exact getD_set_self default ps.query_set ps.nelts d (by omega)
    · rw [getD_set_self default ps.pollset ps.nelts _ (by omega)]
      cases hd : d.desc_type <;> simp [hd]
    · rw [getD_set_self default ps.pollset ps.nelts _ (by omega)]
    · intro i hi
      exact ⟨getD_set_ne default ps.query_set ps.nelts i d (by omega),
        getD_set_ne default ps.pollset ps.nelts i _ (by omega)⟩
  · simp only [apr_pollset_add_sel, if_pos h]
  · obtain ⟨hcap, hql, hrl⟩ := hwf
    have hlt : ps.nelts < ps.nalloc := lt_of_le_of_ne hcap hne
    simp only [apr_pollset_add_sel, if_neg hne, if_neg hnf]
    refine ⟨trivial, trivial, ?_, ?_, ?_, ?_, ?_, ?_⟩
    · exact getD_set_self default ps.query_set ps.nelts d (by omega)
    · intro h
      simp only [if_pos h]
      exact mem_FD_SET_self _ _
    · intro h
      simp only [if_pos h]
      exact mem_FD_SET_self _ _
    · intro h
      simp only [if_pos h]
      exact mem_FD_SET_self _ _
    · intro h
      simp only [if_pos h]
    · intro h
      simp only [if_neg h]
  · simp [apr_pollset_add_sel, hne, hf]

/-- Witness for pollset_add_behavior: adding A to a fresh event-list
pollset of capacity 2 succeeds, appends at index 0 and makes the count
1. -/
theorem pollset_add_behavior_witness :
    PWF (apr_pollset_create 2) ∧
    (apr_pollset_create 2).nelts ≠ (apr_pollset_create 2).nalloc ∧
    (apr_pollset_add (apr_pollset_create 2) recA).1 = apr_status.APR_SUCCESS ∧
    (apr_pollset_add (apr_pollset_create 2) recA).2.nelts = (apr_pollset_create 2).nelts + 1 ∧
    (apr_pollset_add (apr_pollset_create 2) recA).2.query_set.getD
      (apr_pollset_create 2).nelts default = recA :=
  ⟨by decide, by decide,
   (pollset_add_behavior.2.1 (apr_pollset_create 2) recA (by decide) (by decide)).1,
   (pollset_add_behavior.2.1 (apr_pollset_create 2) recA (by decide) (by decide)).2.1,
   (pollset_add_behavior.2.1 (apr_pollset_create 2) recA (by decide) (by decide)).2.2.1⟩

/-! ## Claim theorems on the bitmap backend -/

/-- C7: on a platform lacking handle-based waiting (a WIN32 build of the
bitmap backend), a File record is rejected deterministically with the
backend rejection status APR_EBADF (the not-supported condition of the
spec), both by the one-shot multiplex call (whatever else the record array
holds) and by pollset add on a non-full pollset, which leaves the count
unchanged. -/
theorem bitmap_file_rejected :
    (∀ (aprset : List apr_pollfd_t) (o : SelectOracle) (d : apr_pollfd_t),
      d ∈ aprset → d.desc_type = apr_datatype.APR_POLL_FILE →
      (apr_poll_sel true aprset o).status = apr_status.APR_EBADF) ∧
    (∀ (ps : apr_pollset_sel_t) (d : apr_pollfd_t), ps.nelts ≠ ps.nalloc →
      d.desc_type = apr_datatype.APR_POLL_FILE →
      (apr_pollset_add_sel true ps d).1 = apr_status.APR_EBADF ∧
      (apr_pollset_add_sel true ps d).2.nelts = ps.nelts) := by
  constructor
  · intro aprset o d hd hf
    have hb := apr_poll_sel_build_file aprset ([], [], [], -1) d hd hf
    simp [apr_poll_sel, hb]
  · intro ps d hne hf
    simp [apr_pollset_add_sel, hne, hf]

/-- Witness for bitmap_file_rejected: a WIN32 one-shot call over [A, file]
returns APR_EBADF, and adding the file record to a fresh capacity-2
bitmap pollset returns APR_EBADF with count still 0. -/
theorem bitmap_file_rejected_witness :
    fileRec ∈ [recA, fileRec] ∧ fileRec.desc_type = apr_datatype.APR_POLL_FILE ∧
    (apr_poll_sel true [recA, fileRec] selScenarioOracle).status = apr_status.APR_EBADF ∧
    (apr_pollset_add_sel true (apr_pollset_create_sel 2) fileRec).1 = apr_status.APR_EBADF ∧
    (apr_pollset_add_sel true (apr_pollset_create_sel 2) fileRec).2.nelts =
      (apr_pollset_create_sel 2).nelts :=
  ⟨by decide, by decide,
   bitmap_file_rejected.1 [recA, fileRec] selScenarioOracle fileRec (by decide) (by decide),
   (bitmap_file_rejected.2 (apr_pollset_create_sel 2) fileRec (by decide) (by decide)).1,
   (bitmap_file_rejected.2 (apr_pollset_create_sel 2) fileRec (by decide) (by decide)).2⟩

/-- C10: under the bitmap backend, every returned_events word written by a
wait contains only the Readable, Writable and Error flags: every record of
a successful one-shot call, and every populated result entry of a pollset
wait, satisfies rtnevents AND (Readable OR Writable OR Error) = rtnevents;
moreover readiness recorded only in the exception bit-vector is reported
as Error alone — so Priority, HangUp and Invalid never appear. -/
theorem bitmap_results_only_in_out_err :
    (∀ (w : Bool) (aprset : List apr_pollfd_t) (o : SelectOracle),
      (apr_poll_sel w aprset o).status = apr_status.APR_SUCCESS →
      ∀ r ∈ (apr_poll_sel w aprset o).aprset,
        r.rtnevents &&& (APR_POLLIN ||| APR_POLLOUT ||| APR_POLLERR) = r.rtnevents) ∧
    (∀ (ps : apr_pollset_sel_t) (o : SelectOracle), SWF ps → 0 < o.rv →
      ∀ r ∈ (apr_pollset_poll_sel false ps o).2.2.result_set.take
          (specReadySel o ps.query_set ps.nelts).length,
        r.rtnevents &&& (APR_POLLIN ||| APR_POLLOUT ||| APR_POLLERR) = r.rtnevents) ∧
    (∀ (o : SelectOracle) (fd : Int), fd ∉ o.readset → fd ∉ o.writeset →
      fd ∈ o.exceptset → sel_revents o fd = APR_POLLERR) := by
  refine ⟨?_, ?_, ?_⟩
  · intro w aprset o hs r hr
    by_cases hb : (apr_poll_sel_build w aprset ([], [], [], -1)).1 = apr_status.APR_EBADF
    · simp only [apr_poll_sel, if_pos hb] at hs
      simp at hs
    · by_cases h0 : o.rv = 0
      · simp only [apr_poll_sel, if_neg hb, if_pos h0] at hs
        simp at hs
      · by_cases hneg : o.rv < 0
        · simp only [apr_poll_sel, if_neg hb, if_neg h0, if_pos hneg] at hs
          simp at hs
        · simp only [apr_poll_sel, if_neg hb, if_neg h0, if_neg hneg] at hs hr
          rw [apr_poll_sel_result_success w o aprset hs] at hr
          obtain ⟨r0, _hr0, rfl⟩ := List.mem_map.mp hr
          simpa using sel_revents_mask o r0.descFd
  · intro ps o hwf hrv r hr
    obtain ⟨_, _, hpre⟩ := apr_pollset_poll_sel_pos ps o hwf hrv
    rw [hpre] at hr
    obtain ⟨fd, hfd⟩ := specReadySel_rtnevents o ps.query_set ps.nelts r hr
    rw [hfd]
    exact sel_revents_mask o fd
  · intro o fd h1 h2 h3
    simp [sel_revents, h1, h2, h3, APR_POLLERR]

/-- Witness for bitmap_results_only_in_out_err: a successful WIN32-free
one-shot wait over [A] yields the translated record whose rtnevents (empty
here, handle 11 is in no set) satisfies the mask equation. -/
theorem bitmap_results_only_in_out_err_witness :
    (apr_poll_sel false [recA] selScenarioOracle).status = apr_status.APR_SUCCESS ∧
    ((⟨apr_datatype.APR_POLL_SOCKET, 1, 11, APR_POLLIN, 0, 0⟩ : apr_pollfd_t) ∈
      (apr_poll_sel false [recA] selScenarioOracle).aprset) ∧
    ((⟨apr_datatype.APR_POLL_SOCKET, 1, 11, APR_POLLIN, 0, 0⟩ : apr_pollfd_t).rtnevents &&&
        (APR_POLLIN ||| APR_POLLOUT ||| APR_POLLERR) =
      (⟨apr_datatype.APR_POLL_SOCKET, 1, 11, APR_POLLIN, 0, 0⟩ : apr_pollfd_t).rtnevents) :=
  ⟨by decide, by decide,
   bitmap_results_only_in_out_err.1 false [recA] selScenarioOracle (by decide)
     ⟨apr_datatype.APR_POLL_SOCKET, 1, 11, APR_POLLIN, 0, 0⟩ (by decide)⟩

end APRPoll
